import Mathlib

/-!
Verification of the football-news retrieval-and-decision pipeline.

This file shallowly embeds the core of the repository:
  src/retrieval/hybrid.py    (HybridRetriever, Reciprocal Rank Fusion)
  src/retrieval/reranker.py  (LLMReranker)
  src/novelty/detector.py    (NoveltyDetector)
together with the pydantic data models of src/retrieval/models.py,
src/novelty/models.py, src/db/models.py and the configuration defaults of
src/config/settings.py.

Modelling conventions:
  - Python floats are modelled as rationals.
  - External collaborators (article store, embedding provider, LLM client)
    are modelled by passing their outputs as parameters; a structured LLM
    call that may raise is an Except value (error = the exception message).
    Per the interface of src/services/llm.py, a successfully returned
    structured object is schema-validated; theorems state those schema
    facts (value ranges, the PUBLISH or SKIP pattern) as hypotheses.
  - Pydantic field validation that can actually fire inside the code under
    analysis (the [0,1] bound on RankedResult.relevance_score) is modelled
    by an Option-returning constructor; constructions whose validated
    fields are literal constants inside [0,1] always succeed and are
    modelled as plain record values.
  - Python's stable sorts (list.sort / sorted with a key and reverse=True)
    are modelled by a stable insertion sort descending in the key.
-/

/-- Rational literal 1/2 in normalised form, so that kernel reduction
(decide) works on comparisons against it. -/
def ratHalf : ℚ := ⟨1, 2, by norm_num, by norm_num⟩

/-- Rational literal 3/5 in normalised form. -/
def ratThreeFifths : ℚ := ⟨3, 5, by norm_num, by norm_num⟩

/-- Rational literal 2/5 in normalised form. -/
def ratTwoFifths : ℚ := ⟨2, 5, by norm_num, by norm_num⟩

/-- Rational literal 7/10 in normalised form. -/
def ratSevenTenths : ℚ := ⟨7, 10, by norm_num, by norm_num⟩

/-- Rational literal 19/20 (= 0.95) in normalised form. -/
def ratNineteenTwentieths : ℚ := ⟨19, 20, by norm_num, by norm_num⟩

/-- Rational literal 9/10 (= 0.90) in normalised form. -/
def ratNineTenths : ℚ := ⟨9, 10, by norm_num, by norm_num⟩

/-- Rational literal 4/5 in normalised form. -/
def ratFourFifths : ℚ := ⟨4, 5, by norm_num, by norm_num⟩

/-- Configuration, from src/config/settings.py (only the fields the core
pipeline reads). -/
structure Settings where
  top_k : ℕ
  rrf_k : ℚ
  reranker_relevance_threshold : ℚ
  novelty_confidence_threshold : ℚ

/-- Default configuration values of src/config/settings.py:
top_k = 5, rrf_k = 60, reranker_relevance_threshold = 0.5,
novelty_confidence_threshold = 0.6. -/
def defaultSettings : Settings :=
  { top_k := 5
    rrf_k := 60
    reranker_relevance_threshold := ratHalf
    novelty_confidence_threshold := ratThreeFifths }

/-- An article row returned from the database (src/db/models.py,
ArticleRecord). -/
structure ArticleRecord where
  id : ℤ
  text : String
  score : ℚ
deriving DecidableEq

/-- Fused result after RRF of semantic and keyword search
(src/retrieval/models.py, RetrievalResult). -/
structure RetrievalResult where
  id : ℤ
  text : String
  rrf_score : ℚ
  semantic_rank : Option ℕ
  keyword_rank : Option ℕ
  semantic_score : Option ℚ
  keyword_score : Option ℚ
deriving DecidableEq

/-- LLM reranker output (src/retrieval/models.py, RerankerResponse).
Schema validation constrains relevance to [0,1] on a successful
structured call. -/
structure RerankerResponse where
  relevance : ℚ
  reason : String
deriving DecidableEq

/-- Final result after LLM reranking (src/retrieval/models.py,
RankedResult). Built through mkRankedResult, which models the pydantic
validation of relevance_score. -/
structure RankedResult where
  id : ℤ
  text : String
  rrf_score : ℚ
  relevance_score : ℚ
  relevance_reason : String
  semantic_rank : Option ℕ
  keyword_rank : Option ℕ
deriving DecidableEq

/-- Decision enum of src/novelty/models.py. -/
inductive Decision where
  | PUBLISH
  | SKIP
  | REVIEW
deriving DecidableEq

/-- Conversion of a string to a Decision member, as Python's
Decision(value) enum lookup: none models the ValueError raised on an
unknown value. -/
def decisionOfString : String → Option Decision
  | "PUBLISH" => some Decision.PUBLISH
  | "SKIP" => some Decision.SKIP
  | "REVIEW" => some Decision.REVIEW
  | _ => none

/-- LLM novelty assessor output (src/novelty/models.py, NoveltyResponse).
Schema validation constrains decision to the pattern PUBLISH or SKIP and
confidence to [0,1] on a successful structured call. -/
structure NoveltyResponse where
  decision : String
  confidence : ℚ
  reasoning : String
  new_information : List String
  status_change_detected : Bool
deriving DecidableEq

/-- Complete pipeline result for a single incoming article
(src/novelty/models.py, NoveltyResult). -/
structure NoveltyResult where
  incoming_text : String
  decision : Decision
  confidence : ℚ
  reasoning : String
  new_information : List String
  status_change_detected : Bool
  top_match_text : Option String
  top_match_similarity : Option ℚ
  top_match_id : Option ℤ
  relevant_matches_count : ℕ
deriving DecidableEq

/-- Stable descending insertion (helper of sortDescBy): the new element is
placed before the first strictly smaller key and after all keys at least
as large, which is exactly where Python's stable sort with reverse=True
puts a later element. -/
def insertDescBy {α : Type} (key : α → ℚ) (a : α) : List α → List α
  | [] => [a]
  | b :: rest =>
    if key b ≤ key a then a :: b :: rest else b :: insertDescBy key a rest

/-- Stable sort, descending in the key: the model of Python's
list.sort(key=..., reverse=True) and sorted(..., key=..., reverse=True). -/
def sortDescBy {α : Type} (key : α → ℚ) : List α → List α
  | [] => []
  | a :: rest => insertDescBy key a (sortDescBy key rest)

/-- One defaultdict(float) update scores[i] += v of
HybridRetriever._fuse_rrf: the association list keeps dict insertion
order (first touch appends at the end, later touches update in place). -/
def bump (scores : List (ℤ × ℚ)) (i : ℤ) (v : ℚ) : List (ℤ × ℚ) :=
  match scores with
  | [] => [(i, v)]
  | p :: rest => if p.1 = i then (p.1, p.2 + v) :: rest else p :: bump rest i v

/-- One enumerate(list, start=rank) accumulation loop of
HybridRetriever._fuse_rrf: scores[a.id] += 1 / (rrf_k + rank). -/
def addContribs (k : ℚ) : List (ℤ × ℚ) → List ArticleRecord → ℕ → List (ℤ × ℚ)
  | scores, [], _ => scores
  | scores, a :: rest, rank =>
    addContribs k (bump scores a.id (1 / (k + (rank : ℚ)))) rest (rank + 1)

/-- Lookup in the scores dict with the defaultdict(float) default 0. -/
def scoreOf : List (ℤ × ℚ) → ℤ → ℚ
  | [], _ => 0
  | p :: rest, i => if p.1 = i then p.2 else scoreOf rest i

/-- Total RRF contribution of one ranked list to one id, summing over all
occurrences, with ranks counted from the given start: the loop-level view
of the accumulation in HybridRetriever._fuse_rrf. -/
def contribFrom (k : ℚ) : ℕ → List ℤ → ℤ → ℚ
  | _, [], _ => 0
  | rank, j :: rest, i =>
    (if i = j then 1 / (k + (rank : ℚ)) else 0) + contribFrom k (rank + 1) rest i

/-- RRF contribution of one ranked id list to one id as the specification
words it: 1 / (k + rank) where rank is the 1-based position of the id in
the list, and 0 if the id does not appear. -/
def rrfContribution (k : ℚ) (ids : List ℤ) (i : ℤ) : ℚ :=
  match ids.findIdx? (fun j => j = i) 1 with
  | some r => 1 / (k + (r : ℚ))
  | none => 0

/-- Last occurrence of an id in a ranked list, with its 1-based rank,
starting the count at the given rank: models that
meta[a.id]["semantic_rank"] = rank overwrites on every occurrence. -/
def lastHit (l : List ArticleRecord) (i : ℤ) (rank : ℕ) : Option (ℕ × ArticleRecord) :=
  match l with
  | [] => none
  | a :: rest =>
    match lastHit rest i (rank + 1) with
    | some h => some h
    | none => if a.id = i then some (rank, a) else none

/-- HybridRetriever._fuse_rrf of src/retrieval/hybrid.py: accumulate
1 / (k + rank) per ranked list into a dict, sort the ids descending by
accumulated score (stable over dict insertion order), truncate to top_k,
and attach per-modality metadata. The text of an id is the one recorded
at its first touch (meta.setdefault); the getD "" default is never
reached since every key in the dict was touched by some record. -/
def fuse_rrf (k : ℚ) (semantic keyword : List ArticleRecord) (top_k : ℕ) :
    List RetrievalResult :=
  let scores := addContribs k (addContribs k [] semantic 1) keyword 1
  ((sortDescBy (fun p => p.2) scores).take top_k).map (fun p =>
    { id := p.1
      text := (((semantic ++ keyword).find? (fun a => a.id = p.1)).map
        (fun a => a.text)).getD ""
      rrf_score := p.2
      semantic_rank := (lastHit semantic p.1 1).map (fun h => h.1)
      keyword_rank := (lastHit keyword p.1 1).map (fun h => h.1)
      semantic_score := (lastHit semantic p.1 1).map (fun h => h.2.score)
      keyword_score := (lastHit keyword p.1 1).map (fun h => h.2.score) })

/-- HybridRetriever.retrieve of src/retrieval/hybrid.py, with the two
article-store query results (collaborator outputs) passed as parameters:
the retrieval step is exactly the RRF fusion of the two ranked lists. -/
def retrieve (k : ℚ) (semantic keyword : List ArticleRecord) (top_k : ℕ) :
    List RetrievalResult :=
  fuse_rrf k semantic keyword top_k

/-- Pydantic construction of a RankedResult
(src/retrieval/models.py): relevance_score is validated to lie in [0,1];
none models the ValidationError raised otherwise. -/
def mkRankedResult (id : ℤ) (text : String) (rrf rs : ℚ) (reason : String)
    (sr kr : Option ℕ) : Option RankedResult :=
  if 0 ≤ rs ∧ rs ≤ 1 then
    some { id := id
           text := text
           rrf_score := rrf
           relevance_score := rs
           relevance_reason := reason
           semantic_rank := sr
           keyword_rank := kr }
  else none

/-- The fallback RankedResult of LLMReranker.rerank, as a record:
relevance_score reuses the candidate's own rrf_score and the
relevance_reason is the fixed sentinel. -/
def fallbackRecord (c : RetrievalResult) : RankedResult :=
  { id := c.id
    text := c.text
    rrf_score := c.rrf_score
    relevance_score := c.rrf_score
    relevance_reason := "reranker_fallback"
    semantic_rank := c.semantic_rank
    keyword_rank := c.keyword_rank }

/-- The fallback construction of the except-branch of
LLMReranker.rerank, including its pydantic validation. -/
def fallbackResult (c : RetrievalResult) : Option RankedResult :=
  mkRankedResult c.id c.text c.rrf_score c.rrf_score "reranker_fallback"
    c.semantic_rank c.keyword_rank

/-- One loop iteration of LLMReranker.rerank for one candidate. The
structured-call outcome is an Except value. A ValidationError inside the
try block (either from the structured call, already folded into the error
case, or from the kept-candidate construction) is caught and produces the
fallback entry; a ValidationError raised by the fallback construction
itself happens inside the except block and therefore escapes. The result
is error (exception escapes the loop), ok none (candidate filtered out),
or ok (some r) (candidate kept). -/
def processCandidate (th : ℚ) (c : RetrievalResult)
    (out : Except String RerankerResponse) : Except String (Option RankedResult) :=
  match out with
  | Except.ok resp =>
    if th ≤ resp.relevance then
      match mkRankedResult c.id c.text c.rrf_score resp.relevance resp.reason
          c.semantic_rank c.keyword_rank with
      | some r => Except.ok (some r)
      | none =>
        match fallbackResult c with
        | some r => Except.ok (some r)
        | none => Except.error "validation error for RankedResult"
    else Except.ok none
  | Except.error _ =>
    match fallbackResult c with
    | some r => Except.ok (some r)
    | none => Except.error "validation error for RankedResult"

/-- The candidate loop of LLMReranker.rerank, in input order, with the
per-candidate structured-call outcomes passed positionally. (Theorems
about positions assume the outcome list covers the candidate list.) -/
def rerankAux (th : ℚ) : List RetrievalResult →
    List (Except String RerankerResponse) → Except String (List RankedResult)
  | [], _ => Except.ok []
  | _ :: _, [] => Except.ok []
  | c :: cs, o :: os =>
    match processCandidate th c o with
    | Except.error e => Except.error e
    | Except.ok none => rerankAux th cs os
    | Except.ok (some r) => (rerankAux th cs os).map (fun l => r :: l)

/-- LLMReranker.rerank of src/retrieval/reranker.py: score every
candidate, keep those at or above the threshold plus the fallback
entries, then stably sort descending by relevance_score. -/
def rerank (th : ℚ) (candidates : List RetrievalResult)
    (outs : List (Except String RerankerResponse)) :
    Except String (List RankedResult) :=
  (rerankAux th candidates outs).map
    (fun l => sortDescBy (fun r => r.relevance_score) l)

/-- The low-confidence override marker prefixed to the reasoning in
NoveltyDetector._assess_novelty. -/
def lowConfidenceMarker : String := "[LOW CONFIDENCE — FLAGGED FOR REVIEW] "

/-- The except-branch result of NoveltyDetector._assess_novelty: REVIEW,
confidence 0.0, reasoning naming the failure cause, and whatever
top-match metadata is available (note: top_match_similarity is not set
on this branch). Its construction validates only literal constants and
therefore never fails. -/
def noveltyExceptResult (incoming e : String) (relevant : List RankedResult) :
    NoveltyResult :=
  { incoming_text := incoming
    decision := Decision.REVIEW
    confidence := 0
    reasoning := "Assessment failed: " ++ e ++ ". Flagged for manual review."
    new_information := []
    status_change_detected := false
    top_match_text := relevant.head?.map (fun r => r.text)
    top_match_similarity := none
    top_match_id := relevant.head?.map (fun r => r.id)
    relevant_matches_count := relevant.length }

/-- NoveltyDetector._assess_novelty of src/novelty/detector.py. The
structured-call outcome is an Except value. Inside the try block, a
failing enum lookup Decision(response.decision), an empty
relevant_matches list, or a failing NoveltyResult validation each raise
and are caught by the except branch, which produces the conservative
REVIEW result; the placeholder cause strings stand for the corresponding
Python exception messages. -/
def assessNovelty (s : Settings) (incoming : String)
    (relevant : List RankedResult) (out : Except String NoveltyResponse) :
    NoveltyResult :=
  match out with
  | Except.error e => noveltyExceptResult incoming e relevant
  | Except.ok resp =>
    if resp.confidence < s.novelty_confidence_threshold then
      match relevant.head? with
      | none => noveltyExceptResult incoming "list index out of range" relevant
      | some top =>
        if 0 ≤ resp.confidence ∧ resp.confidence ≤ 1 then
          { incoming_text := incoming
            decision := Decision.REVIEW
            confidence := resp.confidence
            reasoning := lowConfidenceMarker ++ resp.reasoning
            new_information := resp.new_information
            status_change_detected := resp.status_change_detected
            top_match_text := some top.text
            top_match_similarity := some top.relevance_score
            top_match_id := some top.id
            relevant_matches_count := relevant.length }
        else noveltyExceptResult incoming "validation error for NoveltyResult" relevant
    else
      match decisionOfString resp.decision with
      | none =>
        noveltyExceptResult incoming
          (resp.decision ++ " is not a valid Decision") relevant
      | some d =>
        match relevant.head? with
        | none => noveltyExceptResult incoming "list index out of range" relevant
        | some top =>
          if 0 ≤ resp.confidence ∧ resp.confidence ≤ 1 then
            { incoming_text := incoming
              decision := d
              confidence := resp.confidence
              reasoning := resp.reasoning
              new_information := resp.new_information
              status_change_detected := resp.status_change_detected
              top_match_text := some top.text
              top_match_similarity := some top.relevance_score
              top_match_id := some top.id
              relevant_matches_count := relevant.length }
          else noveltyExceptResult incoming "validation error for NoveltyResult" relevant

/-- NoveltyDetector.assess of src/novelty/detector.py, with the
collaborator outcomes passed as parameters: the retriever output as a
candidate list (a retriever exception would propagate before this body
runs), the reranker outcome as an Except value (its exceptions
propagate), and the novelty structured-call outcome as an Except value
(consumed by assessNovelty, never propagated). -/
def assess (s : Settings) (incoming : String)
    (candidates : List RetrievalResult)
    (rerankOut : Except String (List RankedResult))
    (noveltyOut : Except String NoveltyResponse) : Except String NoveltyResult :=
  if candidates.isEmpty then
    Except.ok
      { incoming_text := incoming
        decision := Decision.PUBLISH
        confidence := ratNineteenTwentieths
        reasoning := "No existing articles in the database."
        new_information := []
        status_change_detected := false
        top_match_text := none
        top_match_similarity := none
        top_match_id := none
        relevant_matches_count := 0 }
  else
    match rerankOut with
    | Except.error e => Except.error e
    | Except.ok relevant =>
      if relevant.isEmpty then
        Except.ok
          { incoming_text := incoming
            decision := Decision.PUBLISH
            confidence := ratNineTenths
            reasoning := "Retrieved articles are not about the same story. New topic."
            new_information := []
            status_change_detected := false
            top_match_text := none
            top_match_similarity := none
            top_match_id := none
            relevant_matches_count := 0 }
      else Except.ok (assessNovelty s incoming relevant noveltyOut)

/-- Example semantic list of the specification (section 8): id 7 at
semantic rank 1. -/
def exSemantic : List ArticleRecord :=
  [{ id := 7, text := "s1", score := 1 }]

/-- Example keyword list of the specification (section 8): id 7 at
keyword rank 3. -/
def exKeyword : List ArticleRecord :=
  [{ id := 5, text := "k1", score := 1 },
   { id := 6, text := "k2", score := 1 },
   { id := 7, text := "s1", score := 1 }]

/-- Example list putting one id at rank 1 of both modalities, used with
rrf_k = 0 to exhibit a fused score of 2. -/
def exDup : List ArticleRecord := [{ id := 1, text := "dup", score := 1 }]

/-- Example candidate with an integral fusion score, used by witnesses. -/
def exCandidate : RetrievalResult :=
  { id := 1, text := "t", rrf_score := 1, semantic_rank := some 1,
    keyword_rank := none, semantic_score := some 1, keyword_score := none }

/-- Example relevant match used by witnesses. -/
def exRanked : RankedResult :=
  { id := 2, text := "existing coverage", rrf_score := 1,
    relevance_score := ratFourFifths, relevance_reason := "same story",
    semantic_rank := some 1, keyword_rank := none }

/-- Example low-confidence model response (confidence 0.4, the
specification example). -/
def exLowResponse : NoveltyResponse :=
  { decision := "PUBLISH", confidence := ratTwoFifths,
    reasoning := "model says publish", new_information := [],
    status_change_detected := false }

/-- The fixed path-B result of NoveltyDetector.assess (candidates present
but all filtered out by the reranker). -/
def offTopicResult (incoming : String) : NoveltyResult :=
  { incoming_text := incoming
    decision := Decision.PUBLISH
    confidence := ratNineTenths
    reasoning := "Retrieved articles are not about the same story. New topic."
    new_information := []
    status_change_detected := false
    top_match_text := none
    top_match_similarity := none
    top_match_id := none
    relevant_matches_count := 0 }

/-- Example schema-valid high-confidence model response. -/
def exOkResponse : NoveltyResponse :=
  { decision := "SKIP", confidence := ratSevenTenths,
    reasoning := "duplicate coverage", new_information := [],
    status_change_detected := false }

/-- Example schema-valid high-confidence model response with an empty
reasoning string. -/
def exPublishEmptyResponse : NoveltyResponse :=
  { decision := "PUBLISH", confidence := ratSevenTenths, reasoning := "",
    new_information := [], status_change_detected := false }

/-! Helper lemmas about the stable descending sort. -/

/-- Inserting is a permutation of consing. -/
theorem perm_insertDescBy {α : Type} (key : α → ℚ) (a : α) (l : List α) :
    (insertDescBy key a l).Perm (a :: l) := by
  induction l with
  | nil => simp [insertDescBy]
  | cons b rest ih =>
    simp only [insertDescBy]
    split
    · exact List.Perm.refl _
    · exact (ih.cons b).trans (List.Perm.swap a b rest)

/-- Sorting is a permutation. -/
theorem perm_sortDescBy {α : Type} (key : α → ℚ) (l : List α) :
    (sortDescBy key l).Perm l := by
  induction l with
  | nil => simp [sortDescBy]
  | cons a rest ih =>
    exact (perm_insertDescBy key a _).trans (ih.cons a)

/-- Membership is preserved by the sort. -/
theorem mem_sortDescBy {α : Type} (key : α → ℚ) (l : List α) (x : α) :
    x ∈ sortDescBy key l ↔ x ∈ l :=
  (perm_sortDescBy key l).mem_iff

/-- Length is preserved by the sort. -/
theorem length_sortDescBy {α : Type} (key : α → ℚ) (l : List α) :
    (sortDescBy key l).length = l.length :=
  (perm_sortDescBy key l).length_eq

/-- Inserting into a descending list keeps it descending. -/
theorem pairwise_insertDescBy {α : Type} (key : α → ℚ) (a : α) (l : List α)
    (h : l.Pairwise (fun x y => key y ≤ key x)) :
    (insertDescBy key a l).Pairwise (fun x y => key y ≤ key x) := by
  induction l with
  | nil => simp [insertDescBy]
  | cons b rest ih =>
    rw [List.pairwise_cons] at h
    simp only [insertDescBy]
    split
    · rename_i hba
      refine List.Pairwise.cons ?_ (List.pairwise_cons.mpr h)
      intro x hx
      rcases List.mem_cons.mp hx with hx | hx
      · exact hx ▸ hba
      · exact le_trans (h.1 x hx) hba
    · rename_i hba
      refine List.Pairwise.cons ?_ (ih h.2)
      intro x hx
      have hx2 : x ∈ a :: rest := (perm_insertDescBy key a rest).mem_iff.mp hx
      rcases List.mem_cons.mp hx2 with hx3 | hx3
      · exact hx3 ▸ le_of_lt (lt_of_not_le hba)
      · exact h.1 x hx3

/-- The sort output is descending in the key. -/
theorem sorted_sortDescBy {α : Type} (key : α → ℚ) (l : List α) :
    (sortDescBy key l).Pairwise (fun x y => key y ≤ key x) := by
  induction l with
  | nil => simp [sortDescBy]
  | cons a rest ih => exact pairwise_insertDescBy key a _ ih

/-! Helper lemmas about the RRF score accumulation. -/

/-- Effect of one dict update on a lookup. -/
theorem scoreOf_bump (s : List (ℤ × ℚ)) (i : ℤ) (v : ℚ) (j : ℤ) :
    scoreOf (bump s i v) j = scoreOf s j + (if j = i then v else 0) := by
  induction s with
  | nil =>
    by_cases h : j = i
    · simp [bump, scoreOf, h]
    · have h2 : ¬ i = j := fun h2 => h h2.symm
      simp [bump, scoreOf, h, h2]
  | cons p rest ih =>
    by_cases hpi : p.1 = i
    · by_cases hji : j = i
      · simp [bump, scoreOf, hpi, hji, hpi.trans hji.symm]
      · have hij : ¬ i = j := fun h2 => hji h2.symm
        simp [bump, scoreOf, hpi, hji, hij]
    · by_cases hpj : p.1 = j
      · have hji : ¬ j = i := fun hji => hpi (hpj.trans hji)
        simp [bump, scoreOf, hpi, hpj, hji]
      · simp [bump, scoreOf, hpi, hpj, ih]

/-- Keys of the dict after one update: unchanged if the key is present,
appended at the end otherwise. -/
theorem keys_bump (s : List (ℤ × ℚ)) (i : ℤ) (v : ℚ) :
    (bump s i v).map Prod.fst =
      if i ∈ s.map Prod.fst then s.map Prod.fst else s.map Prod.fst ++ [i] := by
  induction s with
  | nil => simp [bump]
  | cons p rest ih =>
    by_cases hpi : p.1 = i
    · simp [bump, hpi]
    · have hip : ¬ i = p.1 := fun h => hpi h.symm
      by_cases hmem : i ∈ rest.map Prod.fst
      · simp [bump, hpi, hmem, hip, ih]
      · simp [bump, hpi, hmem, hip, ih]

/-- Key distinctness of the dict is preserved by one update. -/
theorem nodup_keys_bump (s : List (ℤ × ℚ)) (i : ℤ) (v : ℚ)
    (h : (s.map Prod.fst).Nodup) : ((bump s i v).map Prod.fst).Nodup := by
  rw [keys_bump]
  split
  · exact h
  · rename_i hmem
    rw [List.nodup_append]
    refine ⟨h, List.nodup_singleton i, ?_⟩
    intro x hx hx2
    rw [List.mem_singleton] at hx2
    exact hmem (hx2 ▸ hx)

/-- Positivity of dict values is preserved by one update with a positive
increment. -/
theorem pos_bump (s : List (ℤ × ℚ)) (i : ℤ) (v : ℚ)
    (hs : ∀ p ∈ s, 0 < p.2) (hv : 0 < v) : ∀ p ∈ bump s i v, 0 < p.2 := by
  induction s with
  | nil =>
    intro p hp
    simp only [bump, List.mem_singleton] at hp
    simpa [hp] using hv
  | cons q rest ih =>
    intro p hp
    simp only [bump] at hp
    split at hp
    · rcases List.mem_cons.mp hp with hp | hp
      · have hq := hs q (List.mem_cons_self q rest)
        simp only [hp]
        exact add_pos hq hv
      · exact hs p (List.mem_cons_of_mem q hp)
    · rcases List.mem_cons.mp hp with hp | hp
      · exact hp ▸ hs q (List.mem_cons_self q rest)
      · exact ih (fun r hr => hs r (List.mem_cons_of_mem q hr)) p hp

/-- Lookup after a whole accumulation loop: the prior value plus the
loop's total contribution to that id. -/
theorem scoreOf_addContribs (k : ℚ) (l : List ArticleRecord) :
    ∀ (s : List (ℤ × ℚ)) (rank : ℕ) (j : ℤ),
      scoreOf (addContribs k s l rank) j =
        scoreOf s j + contribFrom k rank (l.map (fun a => a.id)) j := by
  induction l with
  | nil => intro s rank j; simp [addContribs, contribFrom]
  | cons a rest ih =>
    intro s rank j
    simp only [addContribs, List.map_cons, contribFrom]
    rw [ih, scoreOf_bump]
    ring

/-- Key distinctness of the dict is preserved by a whole accumulation
loop. -/
theorem nodup_keys_addContribs (k : ℚ) (l : List ArticleRecord) :
    ∀ (s : List (ℤ × ℚ)) (rank : ℕ), (s.map Prod.fst).Nodup →
      ((addContribs k s l rank).map Prod.fst).Nodup := by
  induction l with
  | nil => intro s rank h; simpa [addContribs] using h
  | cons a rest ih =>
    intro s rank h
    exact ih _ _ (nodup_keys_bump s a.id _ h)

/-- Positivity of dict values is preserved by a whole accumulation loop
when the smoothing constant is nonnegative and ranks start at 1 or
above. -/
theorem pos_addContribs (k : ℚ) (hk : 0 ≤ k) (l : List ArticleRecord) :
    ∀ (s : List (ℤ × ℚ)) (rank : ℕ), 1 ≤ rank → (∀ p ∈ s, 0 < p.2) →
      ∀ p ∈ addContribs k s l rank, 0 < p.2 := by
  induction l with
  | nil => intro s rank _ hs; simpa [addContribs] using hs
  | cons a rest ih =>
    intro s rank hrank hs
    have hpos : 0 < 1 / (k + (rank : ℚ)) := by
      apply div_pos one_pos
      have : (1 : ℚ) ≤ (rank : ℚ) := by exact_mod_cast hrank
      linarith
    exact ih _ _ (le_trans hrank (Nat.le_succ rank))
      (pos_bump s a.id _ hs hpos)

/-- A value stored in a key-distinct dict is what lookup returns. -/
theorem scoreOf_eq_of_mem (s : List (ℤ × ℚ))
    (h : (s.map Prod.fst).Nodup) (p : ℤ × ℚ) (hp : p ∈ s) :
    scoreOf s p.1 = p.2 := by
  induction s with
  | nil => cases hp
  | cons q rest ih =>
    rw [List.map_cons, List.nodup_cons] at h
    rcases List.mem_cons.mp hp with hp | hp
    · simp [scoreOf, hp]
    · have hqp : ¬ q.1 = p.1 := by
        intro hq
        exact h.1 (hq ▸ List.mem_map_of_mem Prod.fst hp)
      simp only [scoreOf, hqp, if_false]
      exact ih h.2 hp

/-- A list not containing the id contributes nothing to it. -/
theorem contribFrom_eq_zero (k : ℚ) (ids : List ℤ) (i : ℤ) (h : i ∉ ids) :
    ∀ rank : ℕ, contribFrom k rank ids i = 0 := by
  induction ids with
  | nil => intro rank; simp [contribFrom]
  | cons j rest ih =>
    intro rank
    rw [List.mem_cons] at h
    push_neg at h
    simp [contribFrom, h.1, ih h.2]

/-- On a duplicate-free list the loop-level contribution is the
specification-level one: a single reciprocal-rank term at the id's
position, or zero when absent. -/
theorem contribFrom_eq_rrfContribution (k : ℚ) (ids : List ℤ) (i : ℤ)
    (h : ids.Nodup) :
    ∀ rank : ℕ, contribFrom k rank ids i =
      (match ids.findIdx? (fun j => j = i) rank with
        | some r => 1 / (k + (r : ℚ))
        | none => 0) := by
  induction ids with
  | nil => intro rank; simp [contribFrom, List.findIdx?]
  | cons j rest ih =>
    intro rank
    rw [List.nodup_cons] at h
    by_cases hij : i = j
    · subst hij
      have hrest : contribFrom k (rank + 1) rest i = 0 :=
        contribFrom_eq_zero k rest i h.1 (rank + 1)
      simp [contribFrom, hrest, List.findIdx?_cons]
    · have hji : ¬ (j = i) := fun h2 => hij h2.symm
      simp [contribFrom, hij, hji, List.findIdx?_cons, ih h.2]

/-- Every fused entry carries exactly a key-value pair of the internal
scores dict as its id and rrf_score. -/
theorem fuse_rrf_mem_scores (k : ℚ) (semantic keyword : List ArticleRecord)
    (top_k : ℕ) (r : RetrievalResult)
    (hr : r ∈ fuse_rrf k semantic keyword top_k) :
    ∃ p ∈ addContribs k (addContribs k [] semantic 1) keyword 1,
      r.id = p.1 ∧ r.rrf_score = p.2 := by
  simp only [fuse_rrf, List.mem_map] at hr
  obtain ⟨p, hp, hrp⟩ := hr
  have hp2 : p ∈ sortDescBy (fun p : ℤ × ℚ => p.2)
      (addContribs k (addContribs k [] semantic 1) keyword 1) :=
    List.take_subset _ _ hp
  rw [mem_sortDescBy] at hp2
  exact ⟨p, hp2, by rw [← hrp], by rw [← hrp]⟩

/-- The value stored for any key of the scores dict is the sum of the two
per-list RRF contributions to that key. -/
theorem scores_value_eq (k : ℚ) (semantic keyword : List ArticleRecord)
    (hs : (semantic.map (fun a => a.id)).Nodup)
    (hw : (keyword.map (fun a => a.id)).Nodup)
    (p : ℤ × ℚ) (hp : p ∈ addContribs k (addContribs k [] semantic 1) keyword 1) :
    p.2 = rrfContribution k (semantic.map (fun a => a.id)) p.1 +
      rrfContribution k (keyword.map (fun a => a.id)) p.1 := by
  have hkeys : ((addContribs k (addContribs k [] semantic 1) keyword 1).map
      Prod.fst).Nodup := by
    apply nodup_keys_addContribs
    apply nodup_keys_addContribs
    simp
  have hvalue := scoreOf_eq_of_mem _ hkeys p hp
  rw [scoreOf_addContribs, scoreOf_addContribs] at hvalue
  simp only [scoreOf] at hvalue
  rw [contribFrom_eq_rrfContribution k _ _ hs 1,
    contribFrom_eq_rrfContribution k _ _ hw 1] at hvalue
  rw [← hvalue]
  simp [rrfContribution]

/-- Concrete evaluation of the fusion on the specification example. -/
theorem retrieve_example_eq :
    retrieve 60 exSemantic exKeyword 5 =
      [{ id := 7, text := "s1", rrf_score := 1/61 + 1/63,
         semantic_rank := some 1, keyword_rank := some 3,
         semantic_score := some 1, keyword_score := some 1 },
       { id := 5, text := "k1", rrf_score := 1/61,
         semantic_rank := none, keyword_rank := some 1,
         semantic_score := none, keyword_score := some 1 },
       { id := 6, text := "k2", rrf_score := 1/62,
         semantic_rank := none, keyword_rank := some 2,
         semantic_score := none, keyword_score := some 1 }] := by
  norm_num [retrieve, fuse_rrf, addContribs, bump, sortDescBy, insertDescBy,
    lastHit, exSemantic, exKeyword, List.find?]

/-- Positivity of every fused score, for a nonnegative smoothing
constant. -/
theorem pos_fuse_rrf (k : ℚ) (hk : 0 ≤ k)
    (semantic keyword : List ArticleRecord) (top_k : ℕ) :
    ∀ r ∈ fuse_rrf k semantic keyword top_k, 0 < r.rrf_score := by
  intro r hr
  obtain ⟨p, hp, _, hscore⟩ := fuse_rrf_mem_scores k semantic keyword top_k r hr
  rw [hscore]
  have hpos : ∀ q ∈ addContribs k (addContribs k [] semantic 1) keyword 1,
      0 < q.2 := by
    apply pos_addContribs k hk keyword _ 1 le_rfl
    apply pos_addContribs k hk semantic _ 1 le_rfl
    intro q hq
    cases hq
  exact hpos p hp

/-- A result index returned by findIdx? is at least the start index. -/
theorem findIdx?_start_le {α : Type} (p : α → Bool) (l : List α) :
    ∀ i r : ℕ, l.findIdx? p i = some r → i ≤ r := by
  induction l with
  | nil => intro i r h; simp [List.findIdx?] at h
  | cons a rest ih =>
    intro i r h
    rw [List.findIdx?_cons] at h
    split at h
    · cases h
      exact le_rfl
    · exact le_trans (Nat.le_succ i) (ih (i + 1) r h)

/-- A single RRF contribution is at most the rank-one term. -/
theorem rrfContribution_le (k : ℚ) (hk : 0 < k + 1) (ids : List ℤ) (i : ℤ) :
    rrfContribution k ids i ≤ 1 / (k + 1) := by
  unfold rrfContribution
  split
  · rename_i r heq
    have h1r : 1 ≤ r := findIdx?_start_le _ ids 1 r heq
    apply one_div_le_one_div_of_le hk
    have hr : (1 : ℚ) ≤ (r : ℚ) := by exact_mod_cast h1r
    linarith
  · positivity

/-- C1: for every pair of ranked input lists, the fused score that
retrieve assigns to an article id is the sum over the two lists of
1 / (k + rank) at the id's 1-based rank, with a missing id contributing
nothing; in particular, with k = 60 an id at semantic rank 1 and keyword
rank 3 receives 1/61 + 1/63. -/
theorem fused_score_eq_sum_rrf_contributions (k : ℚ)
    (semantic keyword : List ArticleRecord)
    (hs : (semantic.map (fun a => a.id)).Nodup)
    (hw : (keyword.map (fun a => a.id)).Nodup) (top_k : ℕ) :
    (∀ r ∈ retrieve k semantic keyword top_k,
      r.rrf_score = rrfContribution k (semantic.map (fun a => a.id)) r.id +
        rrfContribution k (keyword.map (fun a => a.id)) r.id)
    ∧ (∃ r ∈ retrieve 60 exSemantic exKeyword 5,
        r.id = 7 ∧ r.rrf_score = 1/61 + 1/63) := by
  constructor
  · intro r hr
    obtain ⟨p, hp, hid, hscore⟩ :=
      fuse_rrf_mem_scores k semantic keyword top_k r hr
    rw [hscore, hid]
    exact scores_value_eq k semantic keyword hs hw p hp
  · rw [retrieve_example_eq]
    exact ⟨_, List.mem_cons_self _ _, rfl, rfl⟩

/-- Witness for C1 at the specification example lists. -/
theorem fused_score_eq_sum_rrf_contributions_witness :
    (∀ r ∈ retrieve 60 exSemantic exKeyword 5,
      r.rrf_score = rrfContribution 60 (exSemantic.map (fun a => a.id)) r.id +
        rrfContribution 60 (exKeyword.map (fun a => a.id)) r.id)
    ∧ (∃ r ∈ retrieve 60 exSemantic exKeyword 5,
        r.id = 7 ∧ r.rrf_score = 1/61 + 1/63) :=
  fused_score_eq_sum_rrf_contributions 60 exSemantic exKeyword
    (by decide) (by decide) 5

/-- C6: the fused list is sorted descending in rrf_score, has length at
most the requested top_k, and every entry has a strictly positive
rrf_score (for a nonnegative smoothing constant, as configured). -/
theorem fused_sorted_truncated_positive (k : ℚ) (hk : 0 ≤ k)
    (semantic keyword : List ArticleRecord) (top_k : ℕ) :
    (fuse_rrf k semantic keyword top_k).Pairwise
      (fun a b => b.rrf_score ≤ a.rrf_score) ∧
    (fuse_rrf k semantic keyword top_k).length ≤ top_k ∧
    ∀ r ∈ fuse_rrf k semantic keyword top_k, 0 < r.rrf_score := by
  refine ⟨?_, ?_, pos_fuse_rrf k hk semantic keyword top_k⟩
  · simp only [fuse_rrf]
    rw [List.pairwise_map]
    exact List.Pairwise.sublist (List.take_sublist _ _) (sorted_sortDescBy _ _)
  · simp only [fuse_rrf, List.length_map]
    rw [List.length_take]
    exact min_le_left _ _

/-- Witness for C6 at the specification example lists. -/
theorem fused_sorted_truncated_positive_witness :
    (fuse_rrf 60 exSemantic exKeyword 5).Pairwise
      (fun a b => b.rrf_score ≤ a.rrf_score) ∧
    (fuse_rrf 60 exSemantic exKeyword 5).length ≤ 5 ∧
    ∀ r ∈ fuse_rrf 60 exSemantic exKeyword 5, 0 < r.rrf_score :=
  fused_sorted_truncated_positive 60 (by decide) exSemantic exKeyword 5

/-- Concrete evaluation of the fusion at rrf_k = 0 on exDup. -/
theorem fuse_exDup_eq :
    fuse_rrf 0 exDup exDup 1 =
      [{ id := 1, text := "dup", rrf_score := 2,
         semantic_rank := some 1, keyword_rank := some 1,
         semantic_score := some 1, keyword_score := some 1 }] := by
  norm_num [fuse_rrf, addContribs, bump, sortDescBy, insertDescBy, lastHit,
    exDup, List.find?]

/-- C10: with rrf_k at least 1 every fused score is at most 2/(k+1) and
hence at most 1, so the reranker's fallback construction (which reuses
the fused score as a [0,1]-validated relevance score) always succeeds;
with rrf_k = 0 a candidate ranked first in both lists gets fused score 2
and the fallback construction fails validation. -/
theorem fused_score_bounded_fallback_safe (k : ℚ) (hk : 1 ≤ k)
    (semantic keyword : List ArticleRecord)
    (hs : (semantic.map (fun a => a.id)).Nodup)
    (hw : (keyword.map (fun a => a.id)).Nodup) (top_k : ℕ) :
    (∀ r ∈ fuse_rrf k semantic keyword top_k,
      r.rrf_score ≤ 2 / (k + 1) ∧ r.rrf_score ≤ 1 ∧
      fallbackResult r = some (fallbackRecord r))
    ∧ (∃ r ∈ fuse_rrf 0 exDup exDup 1,
        r.rrf_score = 2 ∧ fallbackResult r = none) := by
  have hk1 : 0 < k + 1 := by linarith
  constructor
  · intro r hr
    obtain ⟨p, hp, hid, hscore⟩ :=
      fuse_rrf_mem_scores k semantic keyword top_k r hr
    have hval := scores_value_eq k semantic keyword hs hw p hp
    have hb : r.rrf_score ≤ 2 / (k + 1) := by
      rw [hscore, hval]
      have h1 := rrfContribution_le k hk1 (semantic.map (fun a => a.id)) p.1
      have h2 := rrfContribution_le k hk1 (keyword.map (fun a => a.id)) p.1
      calc rrfContribution k (semantic.map (fun a => a.id)) p.1 +
            rrfContribution k (keyword.map (fun a => a.id)) p.1
          ≤ 1 / (k + 1) + 1 / (k + 1) := add_le_add h1 h2
        _ = 2 / (k + 1) := by ring
    have hb1 : r.rrf_score ≤ 1 := by
      refine le_trans hb ?_
      rw [div_le_one hk1]
      linarith
    have hpos : 0 < r.rrf_score :=
      pos_fuse_rrf k (le_trans zero_le_one hk) semantic keyword top_k r hr
    refine ⟨hb, hb1, ?_⟩
    unfold fallbackResult mkRankedResult
    rw [if_pos ⟨le_of_lt hpos, hb1⟩]
    rfl
  · rw [fuse_exDup_eq]
    refine ⟨_, List.mem_singleton_self _, rfl, ?_⟩
    norm_num [fallbackResult, mkRankedResult]

/-- Witness for C10 at k = 60 on the specification example lists. -/
theorem fused_score_bounded_fallback_safe_witness :
    (∀ r ∈ fuse_rrf 60 exSemantic exKeyword 5,
      r.rrf_score ≤ 2 / (60 + 1) ∧ r.rrf_score ≤ 1 ∧
      fallbackResult r = some (fallbackRecord r))
    ∧ (∃ r ∈ fuse_rrf 0 exDup exDup 1,
        r.rrf_score = 2 ∧ fallbackResult r = none) :=
  fused_score_bounded_fallback_safe 60 (by decide) exSemantic exKeyword
    (by decide) (by decide) 5

/-! Helper lemmas about the reranker loop. -/

/-- Fields of a successfully validated RankedResult construction. -/
theorem mkRankedResult_eq_some (id : ℤ) (text : String) (rrf rs : ℚ)
    (reason : String) (sr kr : Option ℕ) (r : RankedResult)
    (h : mkRankedResult id text rrf rs reason sr kr = some r) :
    r.relevance_score = rs ∧ r.relevance_reason = reason := by
  unfold mkRankedResult at h
  split at h
  · cases h
    exact ⟨rfl, rfl⟩
  · cases h

/-- A successful fallback construction yields exactly the fallback
record. -/
theorem fallbackResult_eq_some (c : RetrievalResult) (r : RankedResult)
    (h : fallbackResult c = some r) : r = fallbackRecord c := by
  unfold fallbackResult mkRankedResult at h
  split at h
  · cases h
    rfl
  · cases h

/-- The fallback construction succeeds exactly on a candidate whose
fusion score lies in [0,1]. -/
theorem fallbackResult_eq_some_fallbackRecord (c : RetrievalResult)
    (h : 0 ≤ c.rrf_score ∧ c.rrf_score ≤ 1) :
    fallbackResult c = some (fallbackRecord c) := by
  unfold fallbackResult mkRankedResult
  rw [if_pos h]
  rfl

/-- Every kept entry of the reranker loop either met the threshold or is
a fallback entry. -/
theorem processCandidate_ok_some (th : ℚ) (c : RetrievalResult)
    (out : Except String RerankerResponse) (r : RankedResult)
    (h : processCandidate th c out = Except.ok (some r)) :
    th ≤ r.relevance_score ∨ r.relevance_reason = "reranker_fallback" := by
  cases out with
  | ok resp =>
    simp only [processCandidate] at h
    by_cases hth : th ≤ resp.relevance
    · rw [if_pos hth] at h
      cases hmk : mkRankedResult c.id c.text c.rrf_score resp.relevance
          resp.reason c.semantic_rank c.keyword_rank with
      | some r' =>
        rw [hmk] at h
        have h2 : Except.ok (some r') = Except.ok (some r) := h
        cases h2
        exact Or.inl ((mkRankedResult_eq_some _ _ _ _ _ _ _ _ hmk).1 ▸ hth)
      | none =>
        rw [hmk] at h
        cases hfb : fallbackResult c with
        | some r' =>
          rw [hfb] at h
          have h2 : Except.ok (some r') = Except.ok (some r) := h
          cases h2
          exact Or.inr (by rw [fallbackResult_eq_some c _ hfb]; rfl)
        | none =>
          rw [hfb] at h
          have h2 : (Except.error "validation error for RankedResult" :
              Except String (Option RankedResult)) = Except.ok (some r) := h
          cases h2
    · rw [if_neg hth] at h
      have h2 : (Except.ok none : Except String (Option RankedResult)) =
          Except.ok (some r) := h
      cases h2
  | error e =>
    simp only [processCandidate] at h
    cases hfb : fallbackResult c with
    | some r' =>
      rw [hfb] at h
      have h2 : Except.ok (some r') = Except.ok (some r) := h
      cases h2
      exact Or.inr (by rw [fallbackResult_eq_some c _ hfb]; rfl)
    | none =>
      rw [hfb] at h
      have h2 : (Except.error "validation error for RankedResult" :
          Except String (Option RankedResult)) = Except.ok (some r) := h
      cases h2

/-- Invariant of the reranker loop on success: the kept list is no longer
than the input and every entry met the threshold or is a fallback. -/
theorem rerankAux_ok_spec (th : ℚ) :
    ∀ (cands : List RetrievalResult)
      (outs : List (Except String RerankerResponse)) (l : List RankedResult),
      rerankAux th cands outs = Except.ok l →
      l.length ≤ cands.length ∧
      ∀ r ∈ l, th ≤ r.relevance_score ∨ r.relevance_reason = "reranker_fallback" := by
  intro cands
  induction cands with
  | nil =>
    intro outs l h
    cases h
    simp
  | cons c cs ih =>
    intro outs l h
    match outs with
    | [] =>
      cases h
      simp
    | o :: os =>
      simp only [rerankAux] at h
      cases hpc : processCandidate th c o with
      | error e => rw [hpc] at h; cases h
      | ok or =>
        rw [hpc] at h
        cases or with
        | none =>
          obtain ⟨h1, h2⟩ := ih os l h
          exact ⟨le_trans h1 (Nat.le_succ _), h2⟩
        | some r =>
          cases haux : rerankAux th cs os with
          | error e => rw [haux] at h; cases h
          | ok l' =>
            rw [haux] at h
            cases h
            obtain ⟨h1, h2⟩ := ih os l' haux
            refine ⟨Nat.succ_le_succ h1, ?_⟩
            intro x hx
            rcases List.mem_cons.mp hx with hx | hx
            · exact hx ▸ processCandidate_ok_some th c o r hpc
            · exact h2 x hx

/-- When every candidate's fusion score lies in [0,1], the reranker loop
never raises, and every candidate whose structured call failed appears in
the kept list as its fallback record. -/
theorem rerankAux_error_mem (th : ℚ) :
    ∀ (cands : List RetrievalResult)
      (outs : List (Except String RerankerResponse)),
      (∀ c ∈ cands, 0 ≤ c.rrf_score ∧ c.rrf_score ≤ 1) →
      ∃ l, rerankAux th cands outs = Except.ok l ∧
        ∀ (j : ℕ) (c : RetrievalResult) (e : String),
          cands[j]? = some c → outs[j]? = some (Except.error e) →
          fallbackRecord c ∈ l := by
  intro cands
  induction cands with
  | nil =>
    intro outs _
    refine ⟨[], rfl, ?_⟩
    intro j c e hc _
    simp at hc
  | cons c cs ih =>
    intro outs hvalid
    have hc0 := hvalid c (List.mem_cons_self c cs)
    have hfb : fallbackResult c = some (fallbackRecord c) :=
      fallbackResult_eq_some_fallbackRecord c hc0
    have hcs : ∀ x ∈ cs, 0 ≤ x.rrf_score ∧ x.rrf_score ≤ 1 :=
      fun x hx => hvalid x (List.mem_cons_of_mem c hx)
    match outs with
    | [] =>
      refine ⟨[], rfl, ?_⟩
      intro j c' e _ he
      simp at he
    | o :: os =>
      obtain ⟨l, hl, hmem⟩ := ih os hcs
      cases o with
      | error e0 =>
        have hpc : processCandidate th c (Except.error e0) =
            Except.ok (some (fallbackRecord c)) := by
          simp only [processCandidate]
          rw [hfb]
        refine ⟨fallbackRecord c :: l, ?_, ?_⟩
        · show rerankAux th (c :: cs) (Except.error e0 :: os) =
            Except.ok (fallbackRecord c :: l)
          simp only [rerankAux]
          rw [hpc, hl]
          rfl
        · intro j c' e hc' he
          cases j with
          | zero =>
            simp only [List.getElem?_cons_zero, Option.some_inj] at hc'
            exact hc' ▸ List.mem_cons_self _ _
          | succ j =>
            simp only [List.getElem?_cons_succ] at hc' he
            exact List.mem_cons_of_mem _ (hmem j c' e hc' he)
      | ok resp =>
        by_cases hth : th ≤ resp.relevance
        · cases hmk : mkRankedResult c.id c.text c.rrf_score resp.relevance
              resp.reason c.semantic_rank c.keyword_rank with
          | some r =>
            have hpc : processCandidate th c (Except.ok resp) =
                Except.ok (some r) := by
              simp only [processCandidate]
              rw [if_pos hth, hmk]
            refine ⟨r :: l, ?_, ?_⟩
            · show rerankAux th (c :: cs) (Except.ok resp :: os) =
                Except.ok (r :: l)
              simp only [rerankAux]
              rw [hpc, hl]
              rfl
            · intro j c' e hc' he
              cases j with
              | zero => simp at he
              | succ j =>
                simp only [List.getElem?_cons_succ] at hc' he
                exact List.mem_cons_of_mem _ (hmem j c' e hc' he)
          | none =>
            have hpc : processCandidate th c (Except.ok resp) =
                Except.ok (some (fallbackRecord c)) := by
              simp only [processCandidate]
              rw [if_pos hth, hmk, hfb]
            refine ⟨fallbackRecord c :: l, ?_, ?_⟩
            · show rerankAux th (c :: cs) (Except.ok resp :: os) =
                Except.ok (fallbackRecord c :: l)
              simp only [rerankAux]
              rw [hpc, hl]
              rfl
            · intro j c' e hc' he
              cases j with
              | zero => simp at he
              | succ j =>
                simp only [List.getElem?_cons_succ] at hc' he
                exact List.mem_cons_of_mem _ (hmem j c' e hc' he)
        · have hpc : processCandidate th c (Except.ok resp) =
              Except.ok none := by
            simp only [processCandidate]
            rw [if_neg hth]
          refine ⟨l, ?_, ?_⟩
          · show rerankAux th (c :: cs) (Except.ok resp :: os) = Except.ok l
            simp only [rerankAux]
            rw [hpc]
            exact hl
          · intro j c' e hc' he
            cases j with
            | zero => simp at he
            | succ j =>
              simp only [List.getElem?_cons_succ] at hc' he
              exact hmem j c' e hc' he

/-- C4: a candidate whose per-candidate LLM call fails is never dropped:
it appears in the reranker output as a fallback entry scored by its own
fusion score and flagged by the fixed sentinel reason (given candidates
with [0,1] fusion scores, which rrf_k >= 1 guarantees). -/
theorem rerank_never_drops_on_llm_error (th : ℚ)
    (candidates : List RetrievalResult)
    (outs : List (Except String RerankerResponse))
    (hvalid : ∀ c ∈ candidates, 0 ≤ c.rrf_score ∧ c.rrf_score ≤ 1)
    (j : ℕ) (c : RetrievalResult) (e : String)
    (hc : candidates[j]? = some c) (he : outs[j]? = some (Except.error e)) :
    ∃ ranked, rerank th candidates outs = Except.ok ranked ∧
      ∃ r ∈ ranked, r.id = c.id ∧ r.text = c.text ∧
        r.rrf_score = c.rrf_score ∧ r.relevance_score = c.rrf_score ∧
        r.relevance_reason = "reranker_fallback" := by
  obtain ⟨l, hl, hmem⟩ := rerankAux_error_mem th candidates outs hvalid
  refine ⟨sortDescBy (fun r => r.relevance_score) l, ?_, ?_⟩
  · unfold rerank
    rw [hl]
    rfl
  · refine ⟨fallbackRecord c, ?_, rfl, rfl, rfl, rfl, rfl⟩
    rw [mem_sortDescBy]
    exact hmem j c e hc he

/-- Witness for C4: one candidate, one failing LLM call. -/
theorem rerank_never_drops_on_llm_error_witness :
    ∃ ranked, rerank ratHalf [exCandidate] [Except.error "boom"] =
        Except.ok ranked ∧
      ∃ r ∈ ranked, r.id = exCandidate.id ∧ r.text = exCandidate.text ∧
        r.rrf_score = exCandidate.rrf_score ∧
        r.relevance_score = exCandidate.rrf_score ∧
        r.relevance_reason = "reranker_fallback" :=
  rerank_never_drops_on_llm_error ratHalf [exCandidate] [Except.error "boom"]
    (by decide) 0 exCandidate "boom" rfl rfl

/-- C7: the reranker output has no non-fallback entry below the
threshold, is no longer than its input, and is sorted descending by
relevance_score. -/
theorem rerank_threshold_length_sorted (th : ℚ)
    (candidates : List RetrievalResult)
    (outs : List (Except String RerankerResponse))
    (ranked : List RankedResult)
    (h : rerank th candidates outs = Except.ok ranked) :
    (∀ r ∈ ranked, r.relevance_score < th →
      r.relevance_reason = "reranker_fallback") ∧
    ranked.length ≤ candidates.length ∧
    ranked.Pairwise (fun a b => b.relevance_score ≤ a.relevance_score) := by
  unfold rerank at h
  cases haux : rerankAux th candidates outs with
  | error e =>
    rw [haux] at h
    cases h
  | ok l =>
    rw [haux] at h
    have h2 : Except.ok (sortDescBy (fun r => r.relevance_score) l) =
        Except.ok ranked := h
    cases h2
    obtain ⟨h1, h2⟩ := rerankAux_ok_spec th candidates outs l haux
    refine ⟨?_, ?_, sorted_sortDescBy _ _⟩
    · intro r hr hlt
      rcases h2 r ((mem_sortDescBy _ _ _).mp hr) with hth | hsent
      · exact absurd hlt (not_lt.mpr hth)
      · exact hsent
    · rw [length_sortDescBy]
      exact h1

/-- Witness for C7: one kept candidate and one fallback. -/
theorem rerank_threshold_length_sorted_witness :
    (∀ r ∈ [fallbackRecord exCandidate], r.relevance_score < ratHalf →
      r.relevance_reason = "reranker_fallback") ∧
    ([fallbackRecord exCandidate] : List RankedResult).length ≤
      ([exCandidate] : List RetrievalResult).length ∧
    ([fallbackRecord exCandidate] : List RankedResult).Pairwise
      (fun a b => b.relevance_score ≤ a.relevance_score) :=
  rerank_threshold_length_sorted ratHalf [exCandidate] [Except.error "boom"]
    [fallbackRecord exCandidate] rfl

/-! Helper lemmas about the novelty detector. -/

/-- The constant 19/20 is 0.95. -/
theorem ratNineteenTwentieths_eq : ratNineteenTwentieths = 95/100 := by
  rw [ratNineteenTwentieths, Rat.mk'_eq_divInt, Rat.divInt_eq_div]
  norm_num

/-- The constant 9/10 is 0.90. -/
theorem ratNineTenths_eq : ratNineTenths = 9/10 := by
  rw [ratNineTenths, Rat.mk'_eq_divInt, Rat.divInt_eq_div]
  norm_num

/-- A string append with a non-empty left part is non-empty. -/
theorem append_ne_empty_left (a b : String) (ha : a ≠ "") : a ++ b ≠ "" := by
  intro h
  apply ha
  have hd : (a ++ b).data = ("" : String).data := congrArg String.data h
  rw [String.data_append] at hd
  rcases List.append_eq_nil.mp hd with ⟨h1, _⟩
  cases a
  simp at h1
  simp [h1]

/-- The reasoning of the conservative except-branch result is never
empty. -/
theorem noveltyExceptResult_reasoning_ne (incoming e : String)
    (relevant : List RankedResult) :
    (noveltyExceptResult incoming e relevant).reasoning ≠ "" :=
  append_ne_empty_left _ _ (append_ne_empty_left "Assessment failed: " e
    (by decide))

/-- C2: on a valid structured response, a model confidence strictly below
the configured threshold forces the final decision to REVIEW with the
low-confidence marker prefixed to the model reasoning; otherwise the
model's decision and reasoning are adopted verbatim. -/
theorem low_confidence_overrides_to_review (s : Settings) (incoming : String)
    (top : RankedResult) (rest : List RankedResult) (resp : NoveltyResponse)
    (hconf : 0 ≤ resp.confidence ∧ resp.confidence ≤ 1)
    (hdec : resp.decision = "PUBLISH" ∨ resp.decision = "SKIP") :
    (resp.confidence < s.novelty_confidence_threshold →
      (assessNovelty s incoming (top :: rest) (Except.ok resp)).decision =
        Decision.REVIEW ∧
      (assessNovelty s incoming (top :: rest) (Except.ok resp)).reasoning =
        lowConfidenceMarker ++ resp.reasoning) ∧
    (¬ resp.confidence < s.novelty_confidence_threshold →
      decisionOfString resp.decision =
        some (assessNovelty s incoming (top :: rest) (Except.ok resp)).decision ∧
      (assessNovelty s incoming (top :: rest) (Except.ok resp)).reasoning =
        resp.reasoning) := by
  constructor
  · intro hlt
    simp [assessNovelty, List.head?_cons, if_pos hlt, if_pos hconf]
  · intro hge
    simp only [assessNovelty, List.head?_cons, if_neg hge]
    rcases hdec with hd | hd
    · rw [hd]
      simp [decisionOfString, if_pos hconf]
    · rw [hd]
      simp [decisionOfString, if_pos hconf]

/-- Witness for C2 at the specification example: confidence 0.4 against
threshold 0.6 with model decision PUBLISH. -/
theorem low_confidence_overrides_to_review_witness :
    (exLowResponse.confidence <
        defaultSettings.novelty_confidence_threshold →
      (assessNovelty defaultSettings "x" (exRanked :: [])
          (Except.ok exLowResponse)).decision = Decision.REVIEW ∧
      (assessNovelty defaultSettings "x" (exRanked :: [])
          (Except.ok exLowResponse)).reasoning =
        lowConfidenceMarker ++ exLowResponse.reasoning) ∧
    (¬ exLowResponse.confidence <
        defaultSettings.novelty_confidence_threshold →
      decisionOfString exLowResponse.decision =
        some (assessNovelty defaultSettings "x" (exRanked :: [])
          (Except.ok exLowResponse)).decision ∧
      (assessNovelty defaultSettings "x" (exRanked :: [])
          (Except.ok exLowResponse)).reasoning = exLowResponse.reasoning) :=
  low_confidence_overrides_to_review defaultSettings "x" exRanked []
    exLowResponse (by decide) (Or.inl rfl)

/-- C3: when the novelty structured call raises, assess still returns (no
exception escapes), with decision REVIEW, confidence exactly 0, and a
reasoning string containing the failure cause. -/
theorem novelty_exception_returns_review (s : Settings) (incoming : String)
    (candidates : List RetrievalResult) (relevant : List RankedResult)
    (e : String) (hcand : candidates ≠ []) (hrel : relevant ≠ []) :
    ∃ r, assess s incoming candidates (Except.ok relevant) (Except.error e) =
        Except.ok r ∧
      r.decision = Decision.REVIEW ∧ r.confidence = 0 ∧
      ∃ p q : String, r.reasoning = p ++ e ++ q := by
  refine ⟨noveltyExceptResult incoming e relevant, ?_, rfl, rfl,
    "Assessment failed: ", ". Flagged for manual review.", rfl⟩
  simp only [assess]
  rw [if_neg (by simp [List.isEmpty_iff, hcand])]
  rw [if_neg (by simp [List.isEmpty_iff, hrel])]
  rfl

/-- Witness for C3 at a concrete failing call. -/
theorem novelty_exception_returns_review_witness :
    ∃ r, assess defaultSettings "x" [exCandidate] (Except.ok [exRanked])
        (Except.error "boom") = Except.ok r ∧
      r.decision = Decision.REVIEW ∧ r.confidence = 0 ∧
      ∃ p q : String, r.reasoning = p ++ "boom" ++ q :=
  novelty_exception_returns_review defaultSettings "x" [exCandidate]
    [exRanked] "boom" (by decide) (by decide)

/-- C5: zero candidates yield PUBLISH at the fixed constant 0.95 with the
fixed no-prior-coverage message and no top-match fields; candidates all
filtered by the reranker yield PUBLISH at the fixed constant 0.90 with
the fixed off-topic message, independently of the novelty structured-call
outcome (the call is never consumed on this path). -/
theorem empty_paths_publish (s : Settings) (incoming : String)
    (candidates : List RetrievalResult)
    (rerankOut : Except String (List RankedResult))
    (noveltyOut : Except String NoveltyResponse) :
    (candidates = [] →
      ∃ r, assess s incoming candidates rerankOut noveltyOut = Except.ok r ∧
        r.decision = Decision.PUBLISH ∧ r.confidence = 95/100 ∧
        r.reasoning = "No existing articles in the database." ∧
        r.top_match_id = none ∧ r.top_match_text = none ∧
        r.top_match_similarity = none) ∧
    (candidates ≠ [] → rerankOut = Except.ok [] →
      (∃ r, assess s incoming candidates rerankOut noveltyOut = Except.ok r ∧
        r.decision = Decision.PUBLISH ∧ r.confidence = 9/10 ∧
        r.reasoning =
          "Retrieved articles are not about the same story. New topic.") ∧
      ∀ noveltyOut2, assess s incoming candidates rerankOut noveltyOut2 =
        assess s incoming candidates rerankOut noveltyOut) := by
  constructor
  · intro hc
    subst hc
    exact ⟨_, rfl, rfl, ratNineteenTwentieths_eq, rfl, rfl, rfl, rfl⟩
  · intro hc hr
    subst hr
    have hne : ¬ (candidates.isEmpty = true) := by
      simp [List.isEmpty_iff, hc]
    constructor
    · refine ⟨offTopicResult incoming, ?_, rfl, ratNineTenths_eq, rfl⟩
      simp only [assess]
      rw [if_neg hne]
      rfl
    · intro noveltyOut2
      simp only [assess]
      rw [if_neg hne, if_neg hne]
      rfl

/-- Witness for C5 on both empty paths. -/
theorem empty_paths_publish_witness :
    (∃ r, assess defaultSettings "x" [] (Except.ok []) (Except.error "boom") =
        Except.ok r ∧
      r.decision = Decision.PUBLISH ∧ r.confidence = 95/100 ∧
      r.reasoning = "No existing articles in the database." ∧
      r.top_match_id = none ∧ r.top_match_text = none ∧
      r.top_match_similarity = none) ∧
    ((∃ r, assess defaultSettings "x" [exCandidate] (Except.ok [])
          (Except.error "boom") = Except.ok r ∧
        r.decision = Decision.PUBLISH ∧ r.confidence = 9/10 ∧
        r.reasoning =
          "Retrieved articles are not about the same story. New topic.") ∧
      ∀ noveltyOut2, assess defaultSettings "x" [exCandidate]
          (Except.ok []) noveltyOut2 =
        assess defaultSettings "x" [exCandidate] (Except.ok [])
          (Except.error "boom")) :=
  ⟨(empty_paths_publish defaultSettings "x" [] (Except.ok [])
      (Except.error "boom")).1 rfl,
   (empty_paths_publish defaultSettings "x" [exCandidate] (Except.ok [])
      (Except.error "boom")).2 (by decide) rfl⟩

/-- C8 (amended): on the successful branch of the structured call the
result carries the top relevant match's id, text, and relevance score
plus the match count; on the exception branch it carries the id, text,
and count, but top_match_similarity is left unset. -/
theorem top_match_fields_attached (s : Settings) (incoming : String)
    (top : RankedResult) (rest : List RankedResult)
    (out : Except String NoveltyResponse) :
    (∀ resp, out = Except.ok resp →
      0 ≤ resp.confidence → resp.confidence ≤ 1 →
      (resp.confidence < s.novelty_confidence_threshold ∨
        (decisionOfString resp.decision).isSome) →
      (assessNovelty s incoming (top :: rest) out).top_match_id =
          some top.id ∧
      (assessNovelty s incoming (top :: rest) out).top_match_text =
          some top.text ∧
      (assessNovelty s incoming (top :: rest) out).top_match_similarity =
          some top.relevance_score ∧
      (assessNovelty s incoming (top :: rest) out).relevant_matches_count =
          rest.length + 1) ∧
    (∀ e, out = Except.error e →
      (assessNovelty s incoming (top :: rest) out).top_match_id =
          some top.id ∧
      (assessNovelty s incoming (top :: rest) out).top_match_text =
          some top.text ∧
      (assessNovelty s incoming (top :: rest) out).top_match_similarity =
          none ∧
      (assessNovelty s incoming (top :: rest) out).relevant_matches_count =
          rest.length + 1) := by
  constructor
  · intro resp hout h0 h1 hcase
    subst hout
    by_cases hlt : resp.confidence < s.novelty_confidence_threshold
    · simp [assessNovelty, List.head?_cons, if_pos hlt,
        if_pos (And.intro h0 h1), List.length_cons]
    · rcases hcase with hlt2 | hsome
      · exact absurd hlt2 hlt
      · obtain ⟨d, hd⟩ := Option.isSome_iff_exists.mp hsome
        simp [assessNovelty, List.head?_cons, if_neg hlt, hd,
          if_pos (And.intro h0 h1), List.length_cons]
  · intro e hout
    subst hout
    simp [assessNovelty, noveltyExceptResult, List.head?_cons,
      List.length_cons]

/-- Counterexample to C8 as stated: on the exception branch the result's
top_match_similarity is None, not the top match's relevance score. -/
theorem top_match_similarity_missing_cex :
    (assessNovelty defaultSettings "x" [exRanked]
        (Except.error "boom")).top_match_similarity = none ∧
    ¬ (assessNovelty defaultSettings "x" [exRanked]
        (Except.error "boom")).top_match_similarity =
      some exRanked.relevance_score :=
  ⟨rfl, by decide⟩

/-- Witness for the amended C8 on both branches. -/
theorem top_match_fields_attached_witness :
    ((assessNovelty defaultSettings "x" (exRanked :: [])
        (Except.ok exOkResponse)).top_match_id = some exRanked.id ∧
      (assessNovelty defaultSettings "x" (exRanked :: [])
        (Except.ok exOkResponse)).top_match_text = some exRanked.text ∧
      (assessNovelty defaultSettings "x" (exRanked :: [])
        (Except.ok exOkResponse)).top_match_similarity =
          some exRanked.relevance_score ∧
      (assessNovelty defaultSettings "x" (exRanked :: [])
        (Except.ok exOkResponse)).relevant_matches_count =
          ([] : List RankedResult).length + 1) ∧
    ((assessNovelty defaultSettings "x" (exRanked :: [])
        (Except.error "boom")).top_match_id = some exRanked.id ∧
      (assessNovelty defaultSettings "x" (exRanked :: [])
        (Except.error "boom")).top_match_text = some exRanked.text ∧
      (assessNovelty defaultSettings "x" (exRanked :: [])
        (Except.error "boom")).top_match_similarity = none ∧
      (assessNovelty defaultSettings "x" (exRanked :: [])
        (Except.error "boom")).relevant_matches_count =
          ([] : List RankedResult).length + 1) :=
  ⟨(top_match_fields_attached defaultSettings "x" exRanked []
      (Except.ok exOkResponse)).1 exOkResponse rfl (by decide) (by decide)
      (Or.inr (by decide)),
   (top_match_fields_attached defaultSettings "x" exRanked []
      (Except.error "boom")).2 "boom" rfl⟩

/-- C9 (amended): every result of assess carries a decision that is one
of the three labels, and its reasoning is non-empty except when a
successful structured response at or above the confidence threshold
carries an empty model reasoning, which is adopted verbatim. -/
theorem decision_trichotomy_reasoning (s : Settings) (incoming : String)
    (candidates : List RetrievalResult)
    (rerankOut : Except String (List RankedResult))
    (noveltyOut : Except String NoveltyResponse) (r : NoveltyResult)
    (h : assess s incoming candidates rerankOut noveltyOut = Except.ok r) :
    (r.decision = Decision.PUBLISH ∨ r.decision = Decision.SKIP ∨
      r.decision = Decision.REVIEW) ∧
    (r.reasoning = "" → ∃ resp, noveltyOut = Except.ok resp ∧
      resp.reasoning = "" ∧
      ¬ resp.confidence < s.novelty_confidence_threshold) := by
  constructor
  · cases hd : r.decision with
    | PUBLISH => exact Or.inl rfl
    | SKIP => exact Or.inr (Or.inl rfl)
    | REVIEW => exact Or.inr (Or.inr rfl)
  · intro hre
    simp only [assess] at h
    by_cases hcand : candidates.isEmpty
    · rw [if_pos hcand] at h
      cases h
      exact absurd hre
        (show ¬ ("No existing articles in the database." : String) = ""
          by decide)
    · rw [if_neg hcand] at h
      cases rerankOut with
      | error e => cases h
      | ok relevant =>
        have h3 : (if relevant.isEmpty = true then
            Except.ok (offTopicResult incoming)
          else Except.ok (assessNovelty s incoming relevant noveltyOut)) =
            Except.ok r := h
        by_cases hrel : relevant.isEmpty
        · rw [if_pos hrel] at h3
          cases h3
          exact absurd hre
            (show ¬ ("Retrieved articles are not about the same story. New topic." : String) = ""
              by decide)
        · rw [if_neg hrel] at h3
          cases h3
          cases noveltyOut with
          | error e =>
            exact absurd hre (noveltyExceptResult_reasoning_ne incoming e relevant)
          | ok resp =>
            have key : resp.reasoning = "" ∧
                ¬ resp.confidence < s.novelty_confidence_threshold := by
              by_cases hlt : resp.confidence < s.novelty_confidence_threshold
              · exfalso
                simp only [assessNovelty, if_pos hlt] at hre
                cases hh : relevant.head? with
                | none =>
                  simp only [hh] at hre
                  exact noveltyExceptResult_reasoning_ne _ _ _ hre
                | some top =>
                  simp only [hh] at hre
                  by_cases hv : 0 ≤ resp.confidence ∧ resp.confidence ≤ 1
                  · rw [if_pos hv] at hre
                    exact append_ne_empty_left lowConfidenceMarker
                      resp.reasoning (by decide) hre
                  · rw [if_neg hv] at hre
                    exact noveltyExceptResult_reasoning_ne _ _ _ hre
              · simp only [assessNovelty, if_neg hlt] at hre
                cases hd : decisionOfString resp.decision with
                | none =>
                  simp only [hd] at hre
                  exact absurd hre (noveltyExceptResult_reasoning_ne _ _ _)
                | some d =>
                  simp only [hd] at hre
                  cases hh : relevant.head? with
                  | none =>
                    simp only [hh] at hre
                    exact absurd hre (noveltyExceptResult_reasoning_ne _ _ _)
                  | some top =>
                    simp only [hh] at hre
                    by_cases hv : 0 ≤ resp.confidence ∧ resp.confidence ≤ 1
                    · rw [if_pos hv] at hre
                      exact ⟨hre, hlt⟩
                    · rw [if_neg hv] at hre
                      exact absurd hre (noveltyExceptResult_reasoning_ne _ _ _)
            exact ⟨resp, rfl, key.1, key.2⟩

/-- Counterexample to C9 as stated: a schema-valid high-confidence model
response with an empty reasoning string yields a result whose reasoning
is the empty string. -/
theorem decision_trichotomy_reasoning_cex :
    ∃ r, assess defaultSettings "x" [exCandidate] (Except.ok [exRanked])
        (Except.ok exPublishEmptyResponse) = Except.ok r ∧
      r.reasoning = "" :=
  ⟨_, rfl, rfl⟩

/-- Witness for the amended C9 at a concrete failing structured call. -/
theorem decision_trichotomy_reasoning_witness :
    ((noveltyExceptResult "x" "boom" [exRanked]).decision =
        Decision.PUBLISH ∨
      (noveltyExceptResult "x" "boom" [exRanked]).decision =
        Decision.SKIP ∨
      (noveltyExceptResult "x" "boom" [exRanked]).decision =
        Decision.REVIEW) ∧
    ((noveltyExceptResult "x" "boom" [exRanked]).reasoning = "" →
      ∃ resp, (Except.error "boom" : Except String NoveltyResponse) =
          Except.ok resp ∧ resp.reasoning = "" ∧
        ¬ resp.confidence < defaultSettings.novelty_confidence_threshold) :=
  decision_trichotomy_reasoning defaultSettings "x" [exCandidate]
    (Except.ok [exRanked]) (Except.error "boom")
    (noveltyExceptResult "x" "boom" [exRanked]) rfl
